import Mathlib

/-!
Verification development for the autonomous-meeting-assistant repository.

The definitions below are a shallow embedding of the meeting-engine
subsystem: `conversation_manager.py` (ConversationManager) and
`audio_meeting_orchestrator.py` (AudioAwareMeetingOrchestrator).
Python dictionaries are modelled as insertion-ordered association lists
(`lookupA` / `insertA`), Python strings as Lean `String` with ASCII
lowercasing, timestamps as natural numbers (seconds, with microseconds
where second-granularity truncation matters), and the float `confidence`
values as rationals.  External collaborators (platform manager, speech
manager, agent response generation, post-meeting handler) are supplied
as explicit parameters, and the asynchronous callback notifications are
returned as an explicit event list.
-/

namespace AMA

/-! ## Association lists modelling Python dicts (insertion ordered) -/

/-- Lookup in an insertion-ordered association list (Python `d[k]` / `d.get(k)`). -/
def lookupA {κ α : Type} [DecidableEq κ] : List (κ × α) → κ → Option α
  | [], _ => none
  | p :: rest, k => if p.1 = k then some p.2 else lookupA rest k

/-- Python `d[k] = v`: update the value in place if the key is present
(keeping its position, as Python dicts keep insertion order), otherwise
append the new binding at the end. -/
def insertA {κ α : Type} [DecidableEq κ] : List (κ × α) → κ → α → List (κ × α)
  | [], k, v => [(k, v)]
  | p :: rest, k, v => if p.1 = k then (k, v) :: rest else p :: insertA rest k v

/-- Python `d.get(k, d0)`. -/
def getA {κ α : Type} [DecidableEq κ] (l : List (κ × α)) (k : κ) (d : α) : α :=
  (lookupA l k).getD d

/-! ## Python string primitives (ASCII fragment) -/

/-- ASCII lowercasing of one character, modelling `str.lower()` on the
ASCII range used by the repository. -/
def lowerChar (c : Char) : Char :=
  if 'A' ≤ c ∧ c ≤ 'Z' then Char.ofNat (c.toNat + 32) else c

/-- `str.lower()`. -/
def lowerStr (s : String) : String := ⟨s.data.map lowerChar⟩

/-- Is `n` a (character-list) prefix of `h`? -/
def isPrefixL : List Char → List Char → Bool
  | [], _ => true
  | _ :: _, [] => false
  | a :: as, b :: bs => a == b && isPrefixL as bs

/-- Python substring containment `n in h` on character lists. -/
def containsSubL (n : List Char) : List Char → Bool
  | [] => isPrefixL n []
  | c :: rest => isPrefixL n (c :: rest) || containsSubL n rest

/-- Python substring containment `n in h` on strings. -/
def containsSub (n h : String) : Bool := containsSubL n.data h.data

/-- Whitespace characters recognised by Python `str.strip()` / `str.split()`. -/
def isSpaceC (c : Char) : Bool :=
  c == ' ' || c == '\t' || c == '\n' || c == '\r' || c == '\x0b' || c == '\x0c'

/-- Python `str.strip()` on character lists. -/
def stripL (l : List Char) : List Char :=
  ((l.dropWhile isSpaceC).reverse.dropWhile isSpaceC).reverse

/-- Python `s.endswith('?')`. -/
def endsWithQm (l : List Char) : Bool := l.getLast? == some '?'

/-- Python no-argument `str.split()`: split on runs of whitespace,
producing no empty words. -/
def splitWs (l : List Char) : List (List Char) :=
  let step := fun (acc : List (List Char) × List Char) (c : Char) =>
    if isSpaceC c then (if acc.2 = [] then acc else (acc.1 ++ [acc.2.reverse], ([] : List Char)))
    else (acc.1, c :: acc.2)
  let r := l.foldl step ([], [])
  if r.2 = [] then r.1 else r.1 ++ [r.2.reverse]

/-- Python truthiness of an optional string (`None` and `""` are falsy). -/
def optTruthy : Option String → Bool
  | none => false
  | some s => !(s = "")

/-! ## ConversationManager (`meeting_engine/conversation_manager.py`) -/

/-- `MessageType` from `agents/base_agent.py`. -/
inductive MessageType
  | status_update
  | question
  | answer
  | blocker
  | action_item
  | general
deriving DecidableEq, Repr

/-- The `.value` string of a `MessageType` member. -/
def MessageType.val : MessageType → String
  | .status_update => "status_update"
  | .question => "question"
  | .answer => "answer"
  | .blocker => "blocker"
  | .action_item => "action_item"
  | .general => "general"

/-- `ConversationState` enum. -/
inductive ConversationState
  | idle
  | active
  | waiting_for_response
  | paused
deriving DecidableEq, Repr

/-- `TurnTakingStrategy` enum. -/
inductive TurnTakingStrategy
  | round_robin
  | priority_based
  | natural_flow
  | facilitator_controlled
deriving DecidableEq, Repr

/-- `MeetingMessage` as used by the conversation manager (fields the
manager reads; `context_used` is never consulted by it). -/
structure Msg where
  speaker : String
  content : String
  msgType : MessageType
  timestamp : Nat
  confidence : Rat
deriving DecidableEq, Repr

/-- The mutable state of a `ConversationManager` instance. -/
structure ConvState where
  strategy : TurnTakingStrategy
  state : ConversationState
  currentSpeaker : Option String
  speakingQueue : List String
  conversationHistory : List Msg
  participants : List String
  facilitator : Option String
  maxResponseTime : Nat
  maxConsecutiveTurns : Nat
  turnCounts : List (String × Nat)
  lastSpeakerTime : List (String × Nat)
deriving DecidableEq, Repr

/-- `ConversationManager.__init__`. -/
def initConvManager (strategy : TurnTakingStrategy) : ConvState :=
  { strategy := strategy
    state := .idle
    currentSpeaker := none
    speakingQueue := []
    conversationHistory := []
    participants := []
    facilitator := none
    maxResponseTime := 30
    maxConsecutiveTurns := 3
    turnCounts := []
    lastSpeakerTime := [] }

/-- `initialize_conversation`.  Mirrors the statement order of the
source: `self.participants` is assigned first, then
`self.facilitator = facilitator or participants[0]` — which raises
`IndexError` when `facilitator` is falsy and `participants` is empty.
The `.error` branch carries the partially-updated state left behind by
the raise. -/
def initialize_conversation (st : ConvState) (participants : List String)
    (facilitator : Option String) : Except ConvState ConvState :=
  let st1 := { st with participants := participants }
  let facEff : Option String := if optTruthy facilitator then facilitator else participants.head?
  match facEff with
  | none => .error st1
  | some f =>
    .ok { st1 with
          facilitator := some f
          speakingQueue := []
          turnCounts := participants.foldl (fun acc p => insertA acc p 0) []
          lastSpeakerTime := []
          state := .idle }

/-- `_add_message`: append to history, set current speaker, bump the
turn count of the speaker, record the last-spoken time of the speaker. -/
def addMessageRaw (st : ConvState) (speaker content : String)
    (mt : MessageType) (now : Nat) : ConvState :=
  { st with
    conversationHistory :=
      st.conversationHistory ++ [⟨speaker, content, mt, now, 1⟩]
    currentSpeaker := some speaker
    turnCounts := insertA st.turnCounts speaker (getA st.turnCounts speaker 0 + 1)
    lastSpeakerTime := insertA st.lastSpeakerTime speaker now }

/-- `_message_requires_response`: the fixed response-indicator vocabulary. -/
def responseIndicators : List String :=
  ["?", "question", "what do you think", "thoughts", "opinion",
   "agree", "disagree", "feedback", "input", "comment"]

/-- `_message_requires_response`. -/
def messageRequiresResponse (m : Msg) : Bool :=
  responseIndicators.any (fun ind => containsSub ind (lowerStr m.content))

/-- Python `min(items, key=lambda x: x[1])` over dict items: the first
pair with the minimal second component (`none` on the empty list, where
Python raises). -/
def minPairBy? (l : List (String × Nat)) : Option (String × Nat) :=
  l.foldl (fun acc x =>
    match acc with
    | none => some x
    | some a => if x.2 < a.2 then some x else some a) none

/-- Python `max(items, key=lambda x: x[1])`: first pair with the maximal
second component. -/
def maxPairBy? (l : List (String × Nat)) : Option (String × Nat) :=
  l.foldl (fun acc x =>
    match acc with
    | none => some x
    | some a => if x.2 > a.2 then some x else some a) none

/-- Python `min(l, key=key)`: first element with the minimal key. -/
def minByKey? (key : String → Nat) (l : List String) : Option String :=
  l.foldl (fun acc x =>
    match acc with
    | none => some x
    | some a => if key x < key a then some x else some a) none

/-- `_find_appropriate_responder`.  Times are seconds; a missing
`last_speaker_time` entry defaults to `0`, modelling `datetime.min`
(real message times are positive), and `now - 2 minutes` is truncated
subtraction, matching the fact that `datetime.min` is below any cutoff. -/
def findAppropriateResponder (st : ConvState) (m : Msg) (now : Nat) : Option String :=
  match st.participants.find? (fun p => containsSub (lowerStr p) (lowerStr m.content)) with
  | some p => some p
  | none =>
    if m.msgType = .question then
      let recentSpeakers := st.participants.filter
        (fun p => getA st.lastSpeakerTime p 0 > now - 120)
      let nonRecent := st.participants.filter
        (fun p => ¬ recentSpeakers.contains p ∧ p ≠ m.speaker)
      nonRecent.head?
    else
      none

/-- `_message_mentions_participant`. -/
def messageMentionsParticipant (st : ConvState) (m : Msg) : Bool :=
  st.participants.any (fun p => containsSub (lowerStr p) (lowerStr m.content))

/-- `_extract_mentioned_participant`. -/
def extractMentionedParticipant (st : ConvState) (m : Msg) : Option String :=
  st.participants.find? (fun p => containsSub (lowerStr p) (lowerStr m.content))

/-- `_handle_round_robin`.  `participants.index` cannot raise here
because every caller (`add_message`) has checked membership; likewise
the list is non-empty, so the modulus and the `getD` default are never
exercised on the guarded path. -/
def handleRoundRobin (st : ConvState) (cur : String) : ConvState :=
  let n := st.participants.length
  let nextSp := st.participants.getD ((st.participants.indexOf cur + 1) % n) ""
  if nextSp ≠ cur then
    { st with speakingQueue := st.speakingQueue ++ [nextSp] }
  else st

/-- `_handle_priority_based`: queue the first participant with the
strictly lowest turn count, when that count is strictly below the
count of the current speaker.  (`min` over `turn_counts.items()`, which can hold a
non-participant facilitator key once the facilitator has spoken.) -/
def handlePriorityBased (st : ConvState) (cur : String) : ConvState :=
  match minPairBy? st.turnCounts with
  | none => st
  | some leastSpoken =>
    if leastSpoken.1 ≠ cur ∧ leastSpoken.2 < getA st.turnCounts cur 0 then
      { st with speakingQueue := st.speakingQueue ++ [leastSpoken.1] }
    else st

/-- Phase (a) of `_handle_natural_flow`: when the just-added message
requires a response, queue the appropriate responder when one is found
and distinct from the speaker. -/
def naturalFlowRespond (st : ConvState) (lastMessage : Msg) (cur : String) (now : Nat) : ConvState :=
  if messageRequiresResponse lastMessage then
    match findAppropriateResponder st lastMessage now with
    | some responder =>
      if responder ≠ cur then
        { st with speakingQueue := st.speakingQueue ++ [responder] }
      else st
    | none => st
  else st

/-- Phase (b) of `_handle_natural_flow`: once the turn count of the
speaker reaches `max_consecutive_turns`, queue the other participant
with the oldest last-spoken time (`min` breaks ties towards the
original participant order). -/
def naturalFlowStarvation (st : ConvState) (cur : String) : ConvState :=
  if getA st.turnCounts cur 0 ≥ st.maxConsecutiveTurns then
    let others := st.participants.filter (fun p => p ≠ cur)
    if others.isEmpty then st
    else
      match minByKey? (fun p => getA st.lastSpeakerTime p 0) others with
      | some leastRecent =>
        { st with speakingQueue := st.speakingQueue ++ [leastRecent] }
      | none => st
  else st

/-- `_handle_natural_flow`: nothing to do without a last message;
otherwise phase (a) then phase (b), in that order. -/
def handleNaturalFlow (st : ConvState) (cur : String) (now : Nat) : ConvState :=
  match st.conversationHistory.getLast? with
  | none => st
  | some lastMessage =>
    naturalFlowStarvation (naturalFlowRespond st lastMessage cur now) cur

/-- `_handle_facilitator_controlled`. -/
def handleFacilitatorControlled (st : ConvState) (cur : String) : ConvState :=
  if st.facilitator = some cur then
    match st.conversationHistory.getLast? with
    | none => st
    | some lastMessage =>
      if messageMentionsParticipant st lastMessage then
        match extractMentionedParticipant st lastMessage with
        | some mentioned => { st with speakingQueue := st.speakingQueue ++ [mentioned] }
        | none => st
      else st
  else st

/-- `_process_turn_taking`. -/
def processTurnTaking (st : ConvState) (cur : String) (now : Nat) : ConvState :=
  match st.strategy with
  | .round_robin => handleRoundRobin st cur
  | .priority_based => handlePriorityBased st cur
  | .natural_flow => handleNaturalFlow st cur now
  | .facilitator_controlled => handleFacilitatorControlled st cur

/-- `add_message`: no-op when the speaker is not a participant;
otherwise `_add_message` then the turn-taking policy. -/
def add_message (st : ConvState) (speaker content : String)
    (mt : MessageType) (now : Nat) : ConvState :=
  if st.participants.contains speaker then
    processTurnTaking (addMessageRaw st speaker content mt now) speaker now
  else st

/-- `start_conversation`: become ACTIVE; when both the opening message
and the facilitator are truthy, the facilitator speaks the opening
message (no turn-taking pass). -/
def start_conversation (st : ConvState) (opening : Option String) (now : Nat) : ConvState :=
  let st1 := { st with state := ConversationState.active }
  if optTruthy opening && optTruthy st1.facilitator then
    addMessageRaw st1 (st1.facilitator.getD "") (opening.getD "") .general now
  else st1

/-- `get_next_speaker`: pop the queue head. -/
def get_next_speaker (st : ConvState) : Option String × ConvState :=
  match st.speakingQueue with
  | [] => (none, st)
  | h :: t => (some h, { st with speakingQueue := t })

/-- `add_speaker_to_queue`. -/
def add_speaker_to_queue (st : ConvState) (speaker : String) : ConvState :=
  if st.participants.contains speaker ∧ ¬ st.speakingQueue.contains speaker then
    { st with speakingQueue := st.speakingQueue ++ [speaker] }
  else st

/-- `pause_conversation`. -/
def pause_conversation (st : ConvState) : ConvState :=
  { st with state := ConversationState.paused }

/-- `resume_conversation`. -/
def resume_conversation (st : ConvState) : ConvState :=
  { st with state := ConversationState.active }

/-! ### Conversation statistics and summary -/

/-- The dict returned by `get_conversation_stats` (durations as signed
seconds, the mean response time as a rational standing in for the float). -/
structure ConvStats where
  totalMessages : Nat
  participantsCount : Nat
  turnDistribution : List (String × Nat)
  messageTypes : List (String × Nat)
  conversationDuration : Option Int
  averageResponseTime : Option Rat
deriving DecidableEq, Repr

/-- `get_conversation_stats`. -/
def get_conversation_stats (st : ConvState) : ConvStats :=
  let hist := st.conversationHistory
  let messageTypes := hist.foldl
    (fun acc m => insertA acc m.msgType.val (getA acc m.msgType.val 0 + 1)) []
  let duration : Option Int :=
    match hist.head?, hist.getLast? with
    | some first, some last => some ((last.timestamp : Int) - (first.timestamp : Int))
    | _, _ => none
  let responseTimes : List Int :=
    (hist.zip (hist.drop 1)).filterMap
      (fun pc => if pc.1.speaker ≠ pc.2.speaker
                 then some ((pc.2.timestamp : Int) - (pc.1.timestamp : Int))
                 else none)
  { totalMessages := hist.length
    participantsCount := st.participants.length
    turnDistribution := st.turnCounts
    messageTypes := messageTypes
    conversationDuration := duration
    averageResponseTime :=
      if responseTimes.isEmpty then none
      else some ((responseTimes.foldl (· + ·) 0 : Rat) / responseTimes.length) }

/-- `_analyze_conversation_flow` returns one of two dict shapes. -/
inductive FlowAnalysis
  | insufficientData
  | metrics (totalTransitions uniqueTransitions : Nat)
      (transitionDiversity : Rat) (dominantSpeakers : List String)
deriving DecidableEq, Repr

/-- Deduplicate keeping first occurrences (Python `set`, used only for
counting distinct elements). -/
def dedupKeep {α : Type} [DecidableEq α] (l : List α) : List α :=
  l.foldl (fun acc x => if acc.contains x then acc else acc ++ [x]) []

/-- `_analyze_conversation_flow`. -/
def analyzeConversationFlow (st : ConvState) : FlowAnalysis :=
  let hist := st.conversationHistory
  if hist.length < 2 then .insufficientData
  else
    let transitions : List (String × String) :=
      (hist.zip (hist.drop 1)).filterMap
        (fun pc => if pc.1.speaker ≠ pc.2.speaker
                   then some (pc.1.speaker, pc.2.speaker) else none)
    let uniqueT := (dedupKeep transitions).length
    let totalT := transitions.length
    .metrics totalT uniqueT
      (if totalT > 0 then (uniqueT : Rat) / totalT else 0)
      (st.turnCounts.filterMap
        (fun pr => if (pr.2 : Rat) > (hist.length : Rat) * (3 / 10)
                   then some pr.1 else none))

/-- Stable descending insertion by count, modelling Python
`sorted(..., key=lambda x: x[1], reverse=True)`. -/
def insertDescBy (x : List Char × Nat) : List (List Char × Nat) → List (List Char × Nat)
  | [] => [x]
  | y :: ys => if y.2 ≥ x.2 then y :: insertDescBy x ys else x :: y :: ys

/-- Stable descending sort by count. -/
def sortDescBy (l : List (List Char × Nat)) : List (List Char × Nat) :=
  l.foldl (fun acc x => insertDescBy x acc) []

/-- Distinct message types appearing in the history
(`set(msg.message_type for msg in ...)`). -/
def distinctTypes (hist : List Msg) : List MessageType :=
  dedupKeep (hist.map (·.msgType))

/-- `_calculate_engagement_level`.  Scores use rationals in place of
Python floats.  `none` models the `ZeroDivisionError` raised when the
history is non-empty but `participants` is empty; the documented path
returns a string. -/
def calculateEngagementLevel (st : ConvState) : Option String :=
  if st.conversationHistory.isEmpty then some "no_activity"
  else if st.participants.length = 0 then none
  else
    let participationScore : Rat :=
      ((st.turnCounts.filter (fun pr => pr.2 > 0)).length : Rat) / st.participants.length
    let typeDiversityScore : Rat := ((distinctTypes st.conversationHistory).length : Rat) / 6
    let avgMsgLength : Rat :=
      ((st.conversationHistory.map (fun m => m.content.length)).foldl (· + ·) 0 : Rat)
        / st.conversationHistory.length
    let lengthScore : Rat := min (avgMsgLength / 100) 1
    let overallScore := (participationScore + typeDiversityScore + lengthScore) / 3
    some (if overallScore > 7 / 10 then "high"
          else if overallScore > 4 / 10 then "medium"
          else "low")

/-- The dict returned by `get_conversation_summary`. -/
structure ConvSummary where
  statistics : ConvStats
  mostActiveParticipant : Option String
  topKeywords : List (List Char)
  conversationFlow : FlowAnalysis
  engagementLevel : String
deriving DecidableEq, Repr

/-- `get_conversation_summary`.  `none` propagates the
`ZeroDivisionError` of the engagement computation. -/
def get_conversation_summary (st : ConvState) : Option ConvSummary :=
  let mostActive := maxPairBy? st.turnCounts
  let allContent := String.intercalate " " (st.conversationHistory.map (·.content))
  let words := splitWs (lowerStr allContent).data
  let wordFreq := words.foldl
    (fun acc w => if w.length > 4 then insertA acc w (getA acc w 0 + 1) else acc) []
  let topKeywords := ((sortDescBy wordFreq).take 10).map (·.1)
  (calculateEngagementLevel st).map (fun engagement =>
    { statistics := get_conversation_stats st
      mostActiveParticipant := mostActive.map (·.1)
      topKeywords := topKeywords
      conversationFlow := analyzeConversationFlow st
      engagementLevel := engagement })

/-- `end_conversation`: set the state to IDLE, then return the summary. -/
def end_conversation (st : ConvState) : ConvState × Option ConvSummary :=
  let st1 := { st with state := ConversationState.idle }
  (st1, get_conversation_summary st1)

/-! ## AudioAwareMeetingOrchestrator
(`meeting_engine/audio_meeting_orchestrator.py`) -/

/-- `MeetingState` enum. -/
inductive MeetingState
  | scheduled
  | starting
  | active
  | ending
  | completed
  | failed
deriving DecidableEq, Repr

/-- A `datetime.now()` value: seconds since the epoch plus the
sub-second microseconds, which the strftime second-resolution format discards. -/
structure DTime where
  sec : Nat
  usec : Nat
deriving DecidableEq, Repr

/-- One entry of the `transcript` list of a meeting (`ty` is the dict key
`type`; confidence as a rational in place of the float). -/
structure TranscriptEntry where
  timestamp : Nat
  speaker : String
  text : String
  confidence : Rat
  ty : String
  provider : String
deriving DecidableEq, Repr

/-- A meeting record as stored in `self.active_meetings`.  Keys that the
code only adds later (`actual_start_time`, `end_time`, `end_reason`,
post-meeting results) are options defaulting to `none`. -/
structure Meeting where
  id : String
  title : String
  participants : List String
  startTime : Nat
  durationMinutes : Nat
  platform : Option String
  meetingUrl : String
  enableTranscription : Bool
  speechProvider : Option String
  state : MeetingState
  createdTime : DTime
  transcript : List TranscriptEntry
  participantsJoined : List String
  actualStartTime : Option DTime := none
  endTime : Option DTime := none
  endReason : Option String := none
  summary : Option String := none
  actionItems : List String := []
  jiraTickets : List String := []
  confluenceDocs : List String := []
deriving DecidableEq, Repr

/-- The slice of a registered agent the orchestrator reads:
`agent.employee_config.name`. -/
structure Agent where
  name : String
deriving DecidableEq, Repr

/-- The orchestrator state: the agent registry, the meeting registry
(`self.active_meetings`, insertion-ordered dict), the per-meeting count
of registered event callbacks, and the configuration knobs. -/
structure Orch where
  agents : List (String × Agent)
  activeMeetings : List (String × Meeting)
  meetingCallbacks : List (String × Nat)
  maxConcurrentMeetings : Nat
  meetingTimeoutMinutes : Nat
  autoTranscription : Bool
deriving DecidableEq, Repr

/-- An observable callback invocation: `_notify_meeting_callbacks`
invokes one registered callback with `(eventName, meeting)`. -/
inductive Event
  | notify (meetingId : String) (eventName : String)
deriving DecidableEq, Repr

/-- `_notify_meeting_callbacks(meeting_id, event, ...)`: every callback
registered for the meeting is invoked exactly once. -/
def notifyMeetingCallbacks (st : Orch) (meetingId eventName : String) : List Event :=
  List.replicate (getA st.meetingCallbacks meetingId 0) (Event.notify meetingId eventName)

/-- `add_meeting_callback`. -/
def add_meeting_callback (st : Orch) (meetingId : String) : Orch :=
  { st with meetingCallbacks :=
      insertA st.meetingCallbacks meetingId (getA st.meetingCallbacks meetingId 0 + 1) }

/-- A `meeting_config` dict: optional keys model field absence
(`field in config` / `config.get(field)`). -/
structure MeetingConfig where
  title : Option String := none
  participants : Option (List String) := none
  startTime : Option Nat := none
  durationMinutes : Option Nat := none
  platform : Option String := none
  enableTranscription : Option Bool := none
  speechProvider : Option String := none
  meetingUrl : Option String := none
deriving DecidableEq, Repr

/-- `_validate_meeting_config`: required keys present and every
participant known to the agent registry. -/
def validateMeetingConfig (st : Orch) (cfg : MeetingConfig) : Bool :=
  cfg.title.isSome && cfg.participants.isSome && cfg.startTime.isSome &&
    (cfg.participants.getD []).all (fun p => (lookupA st.agents p).isSome)

/-- Decimal digits of `n`, least-significant first, with structural fuel. -/
def natDigitsRev : Nat → Nat → List Nat
  | 0, _ => []
  | fuel + 1, n => if n < 10 then [n] else n % 10 :: natDigitsRev fuel (n / 10)

/-- The ASCII character of a decimal digit. -/
def digitChar (d : Nat) : Char := Char.ofNat (d + 48)

/-- Models the strftime format %Y%m%d_%H%M%S: a rendering of the
timestamp truncated to whole seconds — the string depends only on (and,
over the calendar range, determines) the second-resolution time;
microseconds never appear in it. -/
def secRepr (sec : Nat) : List Char :=
  ((natDigitsRev (sec + 1) sec).reverse).map digitChar

/-- The meeting id generated by `schedule_meeting`:
the f-string prefixing `meeting_` to the strftime-formatted current time. -/
def meetingIdOf (now : DTime) : String :=
  ⟨"meeting_".data ++ secRepr now.sec⟩

/-- `schedule_meeting`.  `now` is the `datetime.now()` of the call and
`platformUrl` the URL the platform collaborator would create (`""` when
creation fails, matching the falsy return).  Returns the updated state
and the returned meeting id (`""` on failure).  The deferred
`start_meeting` task is scheduling of external work, not a state
change. -/
def schedule_meeting (st : Orch) (cfg : MeetingConfig) (now : DTime)
    (platformUrl : String) : Orch × String :=
  let meetingId := meetingIdOf now
  if ¬ validateMeetingConfig st cfg then (st, "")
  else if st.activeMeetings.length ≥ st.maxConcurrentMeetings then (st, "")
  else
    let url0 := cfg.meetingUrl.getD ""
    let url := if url0 = "" then platformUrl else url0
    if url = "" then (st, "")
    else
      let record : Meeting :=
        { id := meetingId
          title := cfg.title.getD ""
          participants := cfg.participants.getD []
          startTime := cfg.startTime.getD 0
          durationMinutes := cfg.durationMinutes.getD 60
          platform := cfg.platform
          meetingUrl := url
          enableTranscription := cfg.enableTranscription.getD st.autoTranscription
          speechProvider := cfg.speechProvider
          state := MeetingState.scheduled
          createdTime := now
          transcript := []
          participantsJoined := [] }
      ({ st with activeMeetings := insertA st.activeMeetings meetingId record }, meetingId)

/-- `start_meeting`.  `joins p` is the outcome of the platform join
attempt issued for participant `p` (join tasks are issued only for
participants present in the agent registry; the attempts run
concurrently, and `participants_joined` collects the successful ones).
Returns the updated state, the boolean result, and the callback
invocations. -/
def start_meeting (st : Orch) (meetingId : String) (joins : String → Bool)
    (now : DTime) : Orch × Bool × List Event :=
  match lookupA st.activeMeetings meetingId with
  | none => (st, false, [])
  | some meeting =>
    if meeting.state ≠ MeetingState.scheduled then (st, false, [])
    else
      let m1 := { meeting with state := MeetingState.starting }
      let joined := m1.participants.filter
        (fun p => (lookupA st.agents p).isSome && joins p)
      let m2 := { m1 with participantsJoined := m1.participantsJoined ++ joined }
      if joined.length > 0 then
        let m3 := { m2 with state := MeetingState.active, actualStartTime := some now }
        ({ st with activeMeetings := insertA st.activeMeetings meetingId m3 },
         true, notifyMeetingCallbacks st meetingId "meeting_started")
      else
        let m3 := { m2 with state := MeetingState.failed }
        ({ st with activeMeetings := insertA st.activeMeetings meetingId m3 },
         false, [])

/-- `_should_agent_respond`: the fixed trigger vocabulary. -/
def responseTriggers : List String :=
  ["status", "update", "progress", "working on", "blocker",
   "blocked", "impediment", "help", "question"]

/-- `_should_agent_respond`: name mention (case-insensitive substring),
trigger word, or trimmed message ending in `?`. -/
def shouldAgentRespond (agentName messageContent : String) : Bool :=
  let messageLower := lowerStr messageContent
  if containsSub (lowerStr agentName) messageLower then true
  else if responseTriggers.any (fun t => containsSub t messageLower) then true
  else if endsWithQm (stripL messageContent.data) then true
  else false

/-- A transcription result delivered by the speech collaborator
(`ty` is the dict key `type`). -/
structure TransResult where
  timestamp : Nat
  speaker : String
  text : String
  confidence : Rat
  ty : String
  provider : Option String
deriving DecidableEq, Repr

/-- `_process_transcription_for_agents`: the joined participants whose
registered agent is not the original speaker and whose eligibility check
passes — for each, a concurrent response-generation task is spawned. -/
def processTranscriptionForAgents (st : Orch) (meetingId : String)
    (res : TransResult) : List String :=
  match lookupA st.activeMeetings meetingId with
  | none => []
  | some meeting =>
    meeting.participantsJoined.filter (fun agentId =>
      match lookupA st.agents agentId with
      | none => false
      | some agent => res.speaker ≠ agent.name && shouldAgentRespond agent.name res.text)

/-- The transcript entry built by the per-meeting transcription callback. -/
def entryOfResult (res : TransResult) : TranscriptEntry :=
  { timestamp := res.timestamp
    speaker := res.speaker
    text := res.text
    confidence := res.confidence
    ty := res.ty
    provider := res.provider.getD "unknown" }

/-- The per-meeting callback produced by
`_create_meeting_transcription_callback`: append the entry to the
transcript, then run agent-response evaluation only for `final`
results.  The second component is `some spawnedAgents` when the
evaluation ran and `none` when it did not. -/
def transcriptionCallback (st : Orch) (meetingId : String)
    (res : TransResult) : Orch × Option (List String) :=
  match lookupA st.activeMeetings meetingId with
  | none => (st, none)
  | some meeting =>
    let m1 := { meeting with transcript := meeting.transcript ++ [entryOfResult res] }
    let st1 := { st with activeMeetings := insertA st.activeMeetings meetingId m1 }
    if res.ty = "final" then
      (st1, some (processTranscriptionForAgents st1 meetingId res))
    else
      (st1, none)

/-- `_generate_and_send_agent_response`: when the agent produces a
non-empty response (supplied by the external generator as
`response : Option (String × Rat)`), append an `agent_response`
transcript entry. -/
def generateAndSendAgentResponse (st : Orch) (meetingId agentId : String)
    (response : Option (String × Rat)) (now : Nat) : Orch :=
  match lookupA st.agents agentId with
  | none => st
  | some agent =>
    match response with
    | none => st
    | some r =>
      if r.1 = "" then st
      else
        match lookupA st.activeMeetings meetingId with
        | none => st
        | some meeting =>
          let entry : TranscriptEntry :=
            { timestamp := now, speaker := agent.name, text := r.1,
              confidence := r.2, ty := "agent_response", provider := "agent" }
          let m1 := { meeting with transcript := meeting.transcript ++ [entry] }
          { st with activeMeetings := insertA st.activeMeetings meetingId m1 }

/-- The results handed back by the post-meeting collaborator
(`PostMeetingActionHandler.process_meeting_completion`). -/
structure PostResults where
  summary : Option String := none
  actionItems : List String := []
  jiraTickets : List String := []
  confluenceDocs : List String := []
deriving DecidableEq, Repr

/-- `end_meeting`.  Rejects (no mutation, no events) when the meeting is
missing or not in ACTIVE/STARTING.  Otherwise: ENDING, stop
transcription and leave the platform (external), store the post-meeting
results (`_process_meeting_completion`), then COMPLETED with `end_time`
and `end_reason`, and notify `meeting_ended`. -/
def end_meeting (st : Orch) (meetingId reason : String) (now : DTime)
    (post : PostResults) : Orch × Bool × List Event :=
  match lookupA st.activeMeetings meetingId with
  | none => (st, false, [])
  | some meeting =>
    if meeting.state ≠ MeetingState.active ∧ meeting.state ≠ MeetingState.starting then
      (st, false, [])
    else
      let m1 := { meeting with state := MeetingState.ending }
      let m2 := { m1 with
        summary := post.summary
        actionItems := post.actionItems
        jiraTickets := post.jiraTickets
        confluenceDocs := post.confluenceDocs }
      let m3 := { m2 with
        state := MeetingState.completed
        endTime := some now
        endReason := some reason }
      ({ st with activeMeetings := insertA st.activeMeetings meetingId m3 },
       true, notifyMeetingCallbacks st meetingId "meeting_ended")

/-! ## Operation alphabet for ConversationManager invariants -/

/-- The public ConversationManager operations that can follow
`initialize_conversation`. -/
inductive ConvOp
  | startConv (opening : Option String) (now : Nat)
  | addMsg (speaker content : String) (mt : MessageType) (now : Nat)
  | addSpeaker (speaker : String)
  | nextSpeaker
  | pauseConv
  | resumeConv
deriving DecidableEq, Repr

/-- Apply one ConversationManager operation. -/
def applyConvOp (st : ConvState) : ConvOp → ConvState
  | .startConv opening now => start_conversation st opening now
  | .addMsg speaker content mt now => add_message st speaker content mt now
  | .addSpeaker speaker => add_speaker_to_queue st speaker
  | .nextSpeaker => (get_next_speaker st).2
  | .pauseConv => pause_conversation st
  | .resumeConv => resume_conversation st

/-- Run a sequence of ConversationManager operations. -/
def runConvOps (st : ConvState) (ops : List ConvOp) : ConvState :=
  ops.foldl applyConvOp st

/-- The ConversationManager state invariant that actually holds: every
participant has a `turnCounts` key, every `turnCounts` key is a
participant or the facilitator, and every queued id is a participant or
the facilitator. -/
def ConvInv (st : ConvState) : Prop :=
  (∀ p ∈ st.participants, (lookupA st.turnCounts p).isSome) ∧
  (∀ pr ∈ st.turnCounts, pr.1 ∈ st.participants ∨ st.facilitator = some pr.1) ∧
  (∀ q ∈ st.speakingQueue, q ∈ st.participants ∨ st.facilitator = some q)

/-! ## Decimal decoding (for injectivity of generated meeting ids) -/

/-- Value of a least-significant-first decimal digit list. -/
def ofDigitsRev : List Nat → Nat
  | [] => 0
  | d :: ds => d + 10 * ofDigitsRev ds

/-! ## Concrete fixtures used by witnesses and counterexamples -/

/-- A registry with one agent, one registered callback for
`meeting_1`, and the default configuration knobs. -/
def orchEx : Orch :=
  { agents := [("a", { name := "Alice" })]
    activeMeetings := []
    meetingCallbacks := [("meeting_1", 1)]
    maxConcurrentMeetings := 3
    meetingTimeoutMinutes := 120
    autoTranscription := true }

/-- A valid meeting configuration over `orchEx` with an explicit URL. -/
def cfgEx : MeetingConfig :=
  { title := some "t", participants := some ["a"], startTime := some 0,
    meetingUrl := some "u" }

/-- Three meetings scheduled at seconds 1, 2, 3, then `meeting_1`
started (its join succeeds) and ended. -/
def c2St3 : Orch :=
  (schedule_meeting
    (schedule_meeting
      (schedule_meeting orchEx cfgEx ⟨1, 0⟩ "").1 cfgEx ⟨2, 0⟩ "").1
    cfgEx ⟨3, 0⟩ "").1

/-- `c2St3` after `meeting_1` has been started with a successful join. -/
def c2St4 : Orch := (start_meeting c2St3 "meeting_1" (fun _ => true) ⟨4, 0⟩).1

/-- `c2St4` after `meeting_1` has been ended. -/
def c2St5 : Orch := (end_meeting c2St4 "meeting_1" "manual" ⟨5, 0⟩ {}).1

/-- Two schedule calls within the same wall-clock second (microseconds
0 and 5), with distinguishable titles. -/
def c4R1 : Orch × String := schedule_meeting orchEx cfgEx ⟨100, 0⟩ ""

/-- The second same-second schedule call, on the updated orchestrator. -/
def c4R2 : Orch × String :=
  schedule_meeting c4R1.1 { cfgEx with title := some "t2" } ⟨100, 5⟩ ""

/-- A conversation manager initialized for three participants under the
natural-flow strategy. -/
def c6St0 : ConvState :=
  ((initialize_conversation (initConvManager .natural_flow)
      ["alice", "bob", "carol"] none).toOption.getD (initConvManager .natural_flow))

/-- `c6St0` after two consecutive messages from alice with no
response-eliciting markers. -/
def c6St2 : ConvState :=
  add_message (add_message c6St0 "alice" "hello there" .general 1)
    "alice" "hello there" .general 2

/-- A priority-based conversation manager initialized with facilitator
`frank` who is not a participant. -/
def c8Init : ConvState :=
  ((initialize_conversation (initConvManager .priority_based)
      ["alice", "bob"] (some "frank")).toOption.getD
    (initConvManager .priority_based))

/-- frank opens the conversation, then alice and bob alternate twice. -/
def c8Ops : List ConvOp :=
  [.startConv (some "hi") 1,
   .addMsg "alice" "m1" .general 2,
   .addMsg "bob" "m2" .general 3,
   .addMsg "alice" "m3" .general 4,
   .addMsg "bob" "m4" .general 5]

/-- The conversation state reached by `c8Ops` from `c8Init`. -/
def c8St : ConvState := runConvOps c8Init c8Ops

/-- A placeholder meeting used only as a `getD` fallback on lookups that
provably succeed. -/
def emptyMeeting : Meeting :=
  { id := "", title := "", participants := [], startTime := 0, durationMinutes := 0,
    platform := none, meetingUrl := "", enableTranscription := false,
    speechProvider := none, state := MeetingState.failed, createdTime := ⟨0, 0⟩,
    transcript := [], participantsJoined := [] }

/-- The `meeting_1` record inside `c2St3` (state SCHEDULED). -/
def c1Mtg : Meeting := (lookupA c2St3.activeMeetings "meeting_1").getD emptyMeeting

/-- The `meeting_1` record inside `c2St4` (state ACTIVE). -/
def c3Mtg : Meeting := (lookupA c2St4.activeMeetings "meeting_1").getD emptyMeeting

/-! ## Library lemmas about the dict model -/

theorem lookupA_insertA_self {κ α : Type} [DecidableEq κ] (l : List (κ × α)) (k : κ) (v : α) :
    lookupA (insertA l k v) k = some v := by
  induction l with
  | nil => simp [insertA, lookupA]
  | cons p rest ih =>
    by_cases h : p.1 = k
    · simp [insertA, h, lookupA]
    · simp [insertA, h, lookupA, ih]

theorem lookupA_insertA_of_ne {κ α : Type} [DecidableEq κ] (l : List (κ × α)) (k k' : κ) (v : α)
    (h : k' ≠ k) : lookupA (insertA l k v) k' = lookupA l k' := by
  induction l with
  | nil => simp [insertA, lookupA, Ne.symm h]
  | cons p rest ih =>
    by_cases hp : p.1 = k
    · subst hp
      simp [insertA, lookupA, Ne.symm h]
    · simp [insertA, hp, lookupA, ih]

theorem isSome_lookupA_insertA {κ α : Type} [DecidableEq κ] (l : List (κ × α)) (k k' : κ) (v : α)
    (h : (lookupA l k').isSome) : (lookupA (insertA l k v) k').isSome := by
  by_cases hk : k' = k
  · subst hk; rw [lookupA_insertA_self]; rfl
  · rw [lookupA_insertA_of_ne l k k' v hk]; exact h

theorem mem_insertA {κ α : Type} [DecidableEq κ] (l : List (κ × α)) (k : κ) (v : α)
    (pr : κ × α) (h : pr ∈ insertA l k v) : pr.1 = k ∨ pr ∈ l := by
  induction l with
  | nil =>
    simp [insertA] at h
    subst h; left; rfl
  | cons p rest ih =>
    by_cases hp : p.1 = k
    · simp [insertA, hp] at h
      rcases h with h | h
      · subst h; left; rfl
      · right; exact List.mem_cons_of_mem _ h
    · simp [insertA, hp] at h
      rcases h with h | h
      · subst h; right; exact List.mem_cons_self _ _
      · rcases ih h with h' | h'
        · left; exact h'
        · right; exact List.mem_cons_of_mem _ h'

theorem isSome_lookupA_of_mem_key {κ α : Type} [DecidableEq κ] (l : List (κ × α)) (pr : κ × α)
    (h : pr ∈ l) : (lookupA l pr.1).isSome := by
  induction l with
  | nil => cases h
  | cons p rest ih =>
    rcases List.mem_cons.mp h with h' | h'
    · subst h'; simp [lookupA]
    · by_cases hp : p.1 = pr.1
      · simp [lookupA, hp]
      · simp [lookupA, hp]; exact ih h'

/-! ## Library lemmas about first-minimum folds -/

theorem minPairBy?_mem_or (l : List (String × Nat)) :
    ∀ (acc : Option (String × Nat)) (x : String × Nat),
      (l.foldl (fun acc x =>
        match acc with
        | none => some x
        | some a => if x.2 < a.2 then some x else some a) acc) = some x →
      x ∈ l ∨ acc = some x := by
  induction l with
  | nil => intro acc x h; right; exact h
  | cons a rest ih =>
    intro acc x h
    rcases ih _ x h with h' | h'
    · left; exact List.mem_cons_of_mem _ h'
    · match acc with
      | none =>
        simp at h'
        left; subst h'; exact List.mem_cons_self _ _
      | some b =>
        by_cases hb : a.2 < b.2
        · simp [hb] at h'
          left; subst h'; exact List.mem_cons_self _ _
        · simp [hb] at h'
          right; rw [h']

theorem minPairBy?_mem (l : List (String × Nat)) (x : String × Nat)
    (h : minPairBy? l = some x) : x ∈ l := by
  rcases minPairBy?_mem_or l none x h with h' | h'
  · exact h'
  · cases h'

theorem minByKey?_mem_or (key : String → Nat) (l : List String) :
    ∀ (acc : Option String) (x : String),
      (l.foldl (fun acc x =>
        match acc with
        | none => some x
        | some a => if key x < key a then some x else some a) acc) = some x →
      x ∈ l ∨ acc = some x := by
  induction l with
  | nil => intro acc x h; right; exact h
  | cons a rest ih =>
    intro acc x h
    rcases ih _ x h with h' | h'
    · left; exact List.mem_cons_of_mem _ h'
    · match acc with
      | none =>
        simp at h'
        left; subst h'; exact List.mem_cons_self _ _
      | some b =>
        by_cases hb : key a < key b
        · simp [hb] at h'
          left; subst h'; exact List.mem_cons_self _ _
        · simp [hb] at h'
          right; rw [h']

theorem minByKey?_mem (key : String → Nat) (l : List String) (x : String)
    (h : minByKey? key l = some x) : x ∈ l := by
  rcases minByKey?_mem_or key l none x h with h' | h'
  · exact h'
  · cases h'

theorem minByKey?_isSome_aux (key : String → Nat) (l : List String) :
    ∀ (acc : Option String), acc.isSome ∨ l ≠ [] →
      ((l.foldl (fun acc x =>
        match acc with
        | none => some x
        | some a => if key x < key a then some x else some a) acc)).isSome := by
  induction l with
  | nil =>
    intro acc h
    rcases h with h | h
    · exact h
    · exact absurd rfl h
  | cons a rest ih =>
    intro acc _
    apply ih
    left
    match acc with
    | none => rfl
    | some b => by_cases hb : key a < key b <;> simp [hb]

theorem minByKey?_isSome (key : String → Nat) (l : List String) (h : l ≠ []) :
    (minByKey? key l).isSome :=
  minByKey?_isSome_aux key l none (Or.inr h)

/-! ## Library lemmas about list access and folds over insertA -/

theorem getD_mem {α : Type} : ∀ (l : List α) (i : Nat) (d : α), i < l.length → l.getD i d ∈ l := by
  intro l
  induction l with
  | nil => intro i d h; cases h
  | cons a rest ih =>
    intro i d h
    cases i with
    | zero => simp [List.getD]
    | succ j =>
      have : j < rest.length := Nat.lt_of_succ_lt_succ h
      simpa [List.getD] using List.mem_cons_of_mem a (by simpa [List.getD] using ih j d this)

theorem foldl_insertA_preserves (ps : List String) :
    ∀ (init : List (String × Nat)) (q : String), (lookupA init q).isSome →
      (lookupA (ps.foldl (fun acc p => insertA acc p 0) init) q).isSome := by
  induction ps with
  | nil => intro init q h; exact h
  | cons p rest ih =>
    intro init q h
    exact ih _ q (isSome_lookupA_insertA init p q 0 h)

theorem lookupA_foldl_insertA_of_mem (ps : List String) :
    ∀ (init : List (String × Nat)) (p : String), p ∈ ps →
      (lookupA (ps.foldl (fun acc p => insertA acc p 0) init) p).isSome := by
  induction ps with
  | nil => intro init p h; cases h
  | cons a rest ih =>
    intro init p h
    rcases List.mem_cons.mp h with h' | h'
    · subst h'
      exact foldl_insertA_preserves rest _ p
        (by rw [lookupA_insertA_self]; rfl)
    · exact ih _ p h'

/-! ## Injectivity of the generated meeting id over seconds -/

theorem ofDigitsRev_natDigitsRev : ∀ (fuel n : Nat), n < fuel →
    ofDigitsRev (natDigitsRev fuel n) = n := by
  intro fuel
  induction fuel with
  | zero => intro n h; cases h
  | succ f ih =>
    intro n h
    by_cases h10 : n < 10
    · simp [natDigitsRev, h10, ofDigitsRev]
    · have hn : 0 < n := Nat.pos_of_ne_zero (by omega)
      have hdiv : n / 10 < n := Nat.div_lt_self hn (by omega)
      have hfuel : n / 10 < f := by omega
      simp [natDigitsRev, h10, ofDigitsRev, ih (n / 10) hfuel]
      omega

theorem natDigitsRev_lt_ten : ∀ (fuel n : Nat), ∀ d ∈ natDigitsRev fuel n, d < 10 := by
  intro fuel
  induction fuel with
  | zero => intro n d h; cases h
  | succ f ih =>
    intro n d h
    by_cases h10 : n < 10
    · simp [natDigitsRev, h10] at h
      omega
    · simp [natDigitsRev, h10] at h
      rcases h with h | h
      · omega
      · exact ih _ d h

theorem digitChar_inj_lt : ∀ (d1 d2 : Fin 10),
    digitChar d1.val = digitChar d2.val → d1 = d2 := by decide

theorem map_digitChar_inj : ∀ (l1 l2 : List Nat), (∀ d ∈ l1, d < 10) → (∀ d ∈ l2, d < 10) →
    l1.map digitChar = l2.map digitChar → l1 = l2 := by
  intro l1
  induction l1 with
  | nil =>
    intro l2 _ _ h
    cases l2 with
    | nil => rfl
    | cons b bs => simp at h
  | cons a as ih =>
    intro l2 h1 h2 h
    cases l2 with
    | nil => simp at h
    | cons b bs =>
      simp only [List.map_cons, List.cons.injEq] at h
      have ha : a < 10 := h1 a (List.mem_cons_self _ _)
      have hb : b < 10 := h2 b (List.mem_cons_self _ _)
      have hab : a = b := by
        have := digitChar_inj_lt ⟨a, ha⟩ ⟨b, hb⟩ h.1
        exact congrArg Fin.val this
      rw [hab, ih bs (fun d hd => h1 d (List.mem_cons_of_mem _ hd))
        (fun d hd => h2 d (List.mem_cons_of_mem _ hd)) h.2]

theorem secRepr_inj (a b : Nat) (h : secRepr a = secRepr b) : a = b := by
  unfold secRepr at h
  have hrev : (natDigitsRev (a + 1) a).reverse = (natDigitsRev (b + 1) b).reverse :=
    map_digitChar_inj _ _
      (fun d hd => natDigitsRev_lt_ten _ _ d (List.mem_reverse.mp hd))
      (fun d hd => natDigitsRev_lt_ten _ _ d (List.mem_reverse.mp hd)) h
  have hdig : natDigitsRev (a + 1) a = natDigitsRev (b + 1) b :=
    List.reverse_injective hrev
  have := congrArg ofDigitsRev hdig
  rwa [ofDigitsRev_natDigitsRev (a + 1) a (Nat.lt_succ_self a),
    ofDigitsRev_natDigitsRev (b + 1) b (Nat.lt_succ_self b)] at this

theorem meetingIdOf_inj (n1 n2 : DTime) (h : meetingIdOf n1 = meetingIdOf n2) :
    n1.sec = n2.sec := by
  rw [meetingIdOf, meetingIdOf] at h
  injection h with hd
  exact secRepr_inj _ _ (List.append_cancel_left hd)

theorem schedule_success_id (st : Orch) (cfg : MeetingConfig) (now : DTime) (purl : String)
    (h : (schedule_meeting st cfg now purl).2 ≠ "") :
    (schedule_meeting st cfg now purl).2 = meetingIdOf now := by
  simp only [schedule_meeting] at h ⊢
  split_ifs at h ⊢ <;> simp_all

theorem mem_foldl_insertA (ps : List String) :
    ∀ (init : List (String × Nat)) (pr : String × Nat),
      pr ∈ ps.foldl (fun acc p => insertA acc p 0) init → pr.1 ∈ ps ∨ pr ∈ init := by
  induction ps with
  | nil => intro init pr h; right; exact h
  | cons a rest ih =>
    intro init pr h
    rcases ih _ pr h with h' | h'
    · left; exact List.mem_cons_of_mem _ h'
    · rcases mem_insertA init a 0 pr h' with h'' | h''
      · left; rw [h'']; exact List.mem_cons_self _ _
      · right; exact h''

/-! ## Membership facts about the turn-taking helpers -/

theorem mem_of_head?_eq_some {α : Type} (l : List α) (a : α) (h : l.head? = some a) : a ∈ l := by
  cases l <;> simp_all

theorem findAppropriateResponder_mem (st : ConvState) (m : Msg) (now : Nat) (r : String)
    (h : findAppropriateResponder st m now = some r) : r ∈ st.participants := by
  unfold findAppropriateResponder at h
  split at h
  · next p hp =>
    injection h with h
    subst h
    exact List.mem_of_find?_eq_some hp
  · next hp =>
    split at h
    · have hr := mem_of_head?_eq_some _ _ h
      exact (List.mem_filter.mp hr).1
    · cases h

theorem extractMentionedParticipant_mem (st : ConvState) (m : Msg) (r : String)
    (h : extractMentionedParticipant st m = some r) : r ∈ st.participants :=
  List.mem_of_find?_eq_some h

theorem optTruthy_isSome (o : Option String) (h : optTruthy o = true) :
    o = some (o.getD "") := by
  cases o <;> simp_all [optTruthy]

/-! ## Shape lemmas for the natural-flow handler -/

theorem naturalFlowRespond_fields (st : ConvState) (lastMessage : Msg) (cur : String)
    (now : Nat) : ∃ q, naturalFlowRespond st lastMessage cur now =
      { st with speakingQueue := q } := by
  simp only [naturalFlowRespond]
  split
  · split
    · split
      · exact ⟨_, rfl⟩
      · exact ⟨st.speakingQueue, rfl⟩
    · exact ⟨st.speakingQueue, rfl⟩
  · exact ⟨st.speakingQueue, rfl⟩

theorem naturalFlowStarvation_starves (st : ConvState) (cur : String)
    (hcount : getA st.turnCounts cur 0 ≥ st.maxConsecutiveTurns)
    (hother : ∃ p, p ∈ st.participants ∧ p ≠ cur) :
    ∃ x, (naturalFlowStarvation st cur).speakingQueue = st.speakingQueue ++ [x] ∧
      x ≠ cur ∧ x ∈ st.participants := by
  have hne : st.participants.filter (fun p => p ≠ cur) ≠ [] := by
    obtain ⟨p, hp, hpne⟩ := hother
    intro hemp
    have hmem : p ∈ st.participants.filter (fun p => p ≠ cur) :=
      List.mem_filter.mpr ⟨hp, by simp [hpne]⟩
    rw [hemp] at hmem
    cases hmem
  obtain ⟨lr, hlr⟩ := Option.isSome_iff_exists.mp
    (minByKey?_isSome (fun p => getA st.lastSpeakerTime p 0) _ hne)
  have hmf := List.mem_filter.mp (minByKey?_mem _ _ _ hlr)
  refine ⟨lr, ?_, by simpa using hmf.2, hmf.1⟩
  have hie : (st.participants.filter (fun p => p ≠ cur)).isEmpty = false := by
    cases hl : st.participants.filter (fun p => p ≠ cur) with
    | nil => exact absurd hl hne
    | cons a t => rfl
  simp only [naturalFlowStarvation, if_pos hcount, hie, Bool.false_eq_true, if_false, hlr]

/-! ## Preservation of the ConversationManager invariant -/

theorem convInv_append_queue (st : ConvState) (x : String)
    (hx : x ∈ st.participants ∨ st.facilitator = some x) (hinv : ConvInv st) :
    ConvInv { st with speakingQueue := st.speakingQueue ++ [x] } := by
  obtain ⟨h1, h2, h3⟩ := hinv
  refine ⟨h1, h2, ?_⟩
  intro q hq
  rcases List.mem_append.mp hq with hq | hq
  · exact h3 q hq
  · simp at hq
    subst hq
    exact hx

theorem convInv_addMessageRaw (st : ConvState) (speaker content : String)
    (mt : MessageType) (now : Nat)
    (hsp : speaker ∈ st.participants ∨ st.facilitator = some speaker)
    (hinv : ConvInv st) : ConvInv (addMessageRaw st speaker content mt now) := by
  obtain ⟨h1, h2, h3⟩ := hinv
  refine ⟨?_, ?_, h3⟩
  · intro p hp
    exact isSome_lookupA_insertA _ _ _ _ (h1 p hp)
  · intro pr hpr
    rcases mem_insertA _ _ _ pr hpr with h' | h'
    · rw [h']; exact hsp
    · exact h2 pr h'

theorem convInv_handleRoundRobin (st : ConvState) (cur : String)
    (hinv : ConvInv st) (hcur : cur ∈ st.participants) :
    ConvInv (handleRoundRobin st cur) := by
  simp only [handleRoundRobin]
  split
  · apply convInv_append_queue _ _ _ hinv
    left
    apply getD_mem
    exact Nat.mod_lt _ (List.length_pos.mpr (List.ne_nil_of_mem hcur))
  · exact hinv

theorem convInv_handlePriorityBased (st : ConvState) (cur : String)
    (hinv : ConvInv st) : ConvInv (handlePriorityBased st cur) := by
  simp only [handlePriorityBased]
  split
  · exact hinv
  · next ls hls =>
    split
    · exact convInv_append_queue _ _ (hinv.2.1 ls (minPairBy?_mem _ _ hls)) hinv
    · exact hinv

theorem convInv_naturalFlowRespond (st : ConvState) (lastMessage : Msg)
    (cur : String) (now : Nat) (hinv : ConvInv st) :
    ConvInv (naturalFlowRespond st lastMessage cur now) := by
  simp only [naturalFlowRespond]
  split
  · split
    · next r hr =>
      split
      · exact convInv_append_queue _ _
          (Or.inl (findAppropriateResponder_mem st lastMessage now r hr)) hinv
      · exact hinv
    · exact hinv
  · exact hinv

theorem convInv_naturalFlowStarvation (st : ConvState) (cur : String)
    (hinv : ConvInv st) : ConvInv (naturalFlowStarvation st cur) := by
  simp only [naturalFlowStarvation]
  split
  · split
    · exact hinv
    · split
      · next lr hlr =>
        have hmem := minByKey?_mem _ _ _ hlr
        exact convInv_append_queue _ _ (Or.inl (List.mem_filter.mp hmem).1) hinv
      · exact hinv
  · exact hinv

theorem convInv_handleNaturalFlow (st : ConvState) (cur : String) (now : Nat)
    (hinv : ConvInv st) : ConvInv (handleNaturalFlow st cur now) := by
  simp only [handleNaturalFlow]
  split
  · exact hinv
  · exact convInv_naturalFlowStarvation _ _ (convInv_naturalFlowRespond _ _ _ _ hinv)

theorem convInv_handleFacilitatorControlled (st : ConvState) (cur : String)
    (hinv : ConvInv st) : ConvInv (handleFacilitatorControlled st cur) := by
  simp only [handleFacilitatorControlled]
  split
  · split
    · exact hinv
    · split
      · split
        · next mentioned hm =>
          exact convInv_append_queue _ _
            (Or.inl (extractMentionedParticipant_mem st _ mentioned hm)) hinv
        · exact hinv
      · exact hinv
  · exact hinv

theorem convInv_processTurnTaking (st : ConvState) (cur : String) (now : Nat)
    (hinv : ConvInv st) (hcur : cur ∈ st.participants) :
    ConvInv (processTurnTaking st cur now) := by
  simp only [processTurnTaking]
  split
  · exact convInv_handleRoundRobin st cur hinv hcur
  · exact convInv_handlePriorityBased st cur hinv
  · exact convInv_handleNaturalFlow st cur now hinv
  · exact convInv_handleFacilitatorControlled st cur hinv

theorem convInv_add_message (st : ConvState) (speaker content : String)
    (mt : MessageType) (now : Nat) (hinv : ConvInv st) :
    ConvInv (add_message st speaker content mt now) := by
  by_cases hc : st.participants.contains speaker = true
  · have hmem : speaker ∈ st.participants := by simpa using hc
    simp only [add_message, hc, if_true]
    exact convInv_processTurnTaking _ speaker now
      (convInv_addMessageRaw st speaker content mt now (Or.inl hmem) hinv) hmem
  · simp only [add_message, hc]
    simp only [Bool.false_eq_true, if_false]
    exact hinv

theorem convInv_start_conversation (st : ConvState) (opening : Option String)
    (now : Nat) (hinv : ConvInv st) : ConvInv (start_conversation st opening now) := by
  have hinv1 : ConvInv { st with state := ConversationState.active } := hinv
  simp only [start_conversation]
  split
  · next hcond =>
    have htr : optTruthy st.facilitator = true := by
      rcases Bool.and_eq_true_iff.mp hcond with ⟨_, h2⟩
      exact h2
    apply convInv_addMessageRaw _ _ _ _ _ _ hinv1
    right
    exact optTruthy_isSome _ htr
  · exact hinv1

theorem convInv_add_speaker_to_queue (st : ConvState) (speaker : String)
    (hinv : ConvInv st) : ConvInv (add_speaker_to_queue st speaker) := by
  simp only [add_speaker_to_queue]
  split
  · next hcond =>
    exact convInv_append_queue _ _ (Or.inl (by simpa using hcond.1)) hinv
  · exact hinv

theorem convInv_get_next_speaker (st : ConvState) (hinv : ConvInv st) :
    ConvInv (get_next_speaker st).2 := by
  obtain ⟨h1, h2, h3⟩ := hinv
  simp only [get_next_speaker]
  split
  · exact ⟨h1, h2, h3⟩
  · next h t hq =>
    refine ⟨h1, h2, ?_⟩
    intro q hqm
    exact h3 q (by rw [hq]; exact List.mem_cons_of_mem _ hqm)

theorem convInv_applyConvOp (st : ConvState) (op : ConvOp) (hinv : ConvInv st) :
    ConvInv (applyConvOp st op) := by
  cases op with
  | startConv opening now => exact convInv_start_conversation st opening now hinv
  | addMsg speaker content mt now => exact convInv_add_message st speaker content mt now hinv
  | addSpeaker speaker => exact convInv_add_speaker_to_queue st speaker hinv
  | nextSpeaker => exact convInv_get_next_speaker st hinv
  | pauseConv => exact hinv
  | resumeConv => exact hinv

theorem convInv_runConvOps (ops : List ConvOp) :
    ∀ (st : ConvState), ConvInv st → ConvInv (runConvOps st ops) := by
  induction ops with
  | nil => intro st hinv; exact hinv
  | cons op rest ih =>
    intro st hinv
    exact ih _ (convInv_applyConvOp st op hinv)

theorem convInv_afterInit (st st0 : ConvState) (participants : List String)
    (facilitator : Option String)
    (h : initialize_conversation st participants facilitator = .ok st0) :
    ConvInv st0 := by
  unfold initialize_conversation at h
  cases hEff : (if optTruthy facilitator then facilitator else participants.head?) with
  | none => simp only [hEff] at h; cases h
  | some f =>
    simp only [hEff] at h
    injection h with h
    subst h
    refine ⟨?_, ?_, ?_⟩
    · intro p hp
      exact lookupA_foldl_insertA_of_mem participants [] p hp
    · intro pr hpr
      rcases mem_foldl_insertA participants [] pr hpr with h' | h'
      · exact Or.inl h'
      · cases h'
    · intro q hq
      cases hq

/-! ## Remaining auxiliary lemmas -/

theorem processTurnTaking_natural (st : ConvState) (cur : String) (now : Nat)
    (h : st.strategy = TurnTakingStrategy.natural_flow) :
    processTurnTaking st cur now = handleNaturalFlow st cur now := by
  simp only [processTurnTaking, h]

theorem meetingIdOf_ne_empty (now : DTime) : meetingIdOf now ≠ "" := by
  rw [meetingIdOf]
  intro h
  have hd := congrArg String.data h
  dsimp only at hd
  simp at hd

theorem shouldAgentRespond_iff (agentName messageContent : String) :
    shouldAgentRespond agentName messageContent = true ↔
      (containsSub (lowerStr agentName) (lowerStr messageContent) = true ∨
       responseTriggers.any (fun t => containsSub t (lowerStr messageContent)) = true ∨
       endsWithQm (stripL messageContent.data) = true) := by
  simp only [shouldAgentRespond]
  by_cases h1 : containsSub (lowerStr agentName) (lowerStr messageContent) = true
  · simp [h1]
  · by_cases h2 : responseTriggers.any (fun t => containsSub t (lowerStr messageContent)) = true
    · simp [h1, h2]
    · by_cases h3 : endsWithQm (stripL messageContent.data) = true
      · simp [h1, h2, h3]
      · simp [h1, h2, h3]

/-! ## Claim theorems -/

/-- C1: for a registered meeting in state SCHEDULED, `start_meeting`
transitions through STARTING and then: when at least one of the issued
join attempts (one per participant registered as an agent) succeeds,
the final state is ACTIVE, `actual_start_time` is set, the call returns
true, and every callback registered for the meeting receives exactly
one `meeting_started` invocation; when no join succeeds, the final
state is FAILED, the call returns false, and no callback is invoked. -/
theorem C1_start_meeting_outcome (st : Orch) (meetingId : String) (joins : String → Bool)
    (now : DTime) (meeting : Meeting)
    (hm : lookupA st.activeMeetings meetingId = some meeting)
    (hsched : meeting.state = MeetingState.scheduled) :
    (meeting.participants.filter (fun p => (lookupA st.agents p).isSome && joins p) ≠ [] →
      (start_meeting st meetingId joins now).2.1 = true ∧
      (∃ m', lookupA (start_meeting st meetingId joins now).1.activeMeetings meetingId = some m' ∧
        m'.state = MeetingState.active ∧
        m'.actualStartTime = some now ∧
        m'.participantsJoined = meeting.participantsJoined ++
          meeting.participants.filter (fun p => (lookupA st.agents p).isSome && joins p)) ∧
      (start_meeting st meetingId joins now).2.2 =
        List.replicate (getA st.meetingCallbacks meetingId 0)
          (Event.notify meetingId "meeting_started")) ∧
    (meeting.participants.filter (fun p => (lookupA st.agents p).isSome && joins p) = [] →
      (start_meeting st meetingId joins now).2.1 = false ∧
      (∃ m', lookupA (start_meeting st meetingId joins now).1.activeMeetings meetingId = some m' ∧
        m'.state = MeetingState.failed) ∧
      (start_meeting st meetingId joins now).2.2 = []) := by
  constructor
  · intro hne
    have hpos : 0 < (meeting.participants.filter
        (fun p => (lookupA st.agents p).isSome && joins p)).length :=
      List.length_pos.mpr hne
    simp only [start_meeting, hm]
    rw [if_neg (fun hc => hc hsched)]
    rw [if_pos hpos]
    exact ⟨rfl, ⟨_, lookupA_insertA_self _ _ _, rfl, rfl, rfl⟩, rfl⟩
  · intro hemp
    have hz : ¬ 0 < (meeting.participants.filter
        (fun p => (lookupA st.agents p).isSome && joins p)).length := by
      rw [hemp]; simp
    simp only [start_meeting, hm]
    rw [if_neg (fun hc => hc hsched)]
    rw [if_neg hz]
    exact ⟨rfl, ⟨_, lookupA_insertA_self _ _ _, rfl⟩, rfl⟩

/-- C1 witness: over `c2St3` (meeting_1 SCHEDULED, one registered
callback, one participant with a registered agent), starting with every
join succeeding yields ACTIVE with the start time recorded, returns
true, and notifies exactly once. -/
theorem C1_start_meeting_outcome_witness :
    (lookupA c2St3.activeMeetings "meeting_1" = some c1Mtg) ∧
    c1Mtg.state = MeetingState.scheduled ∧
    (c1Mtg.participants.filter
      (fun p => (lookupA c2St3.agents p).isSome && (fun _ => true) p) ≠ []) ∧
    ((start_meeting c2St3 "meeting_1" (fun _ => true) ⟨4, 0⟩).2.1 = true ∧
      (∃ m', lookupA (start_meeting c2St3 "meeting_1" (fun _ => true) ⟨4, 0⟩).1.activeMeetings
          "meeting_1" = some m' ∧
        m'.state = MeetingState.active ∧
        m'.actualStartTime = some ⟨4, 0⟩ ∧
        m'.participantsJoined = c1Mtg.participantsJoined ++
          c1Mtg.participants.filter
            (fun p => (lookupA c2St3.agents p).isSome && (fun _ => true) p)) ∧
      (start_meeting c2St3 "meeting_1" (fun _ => true) ⟨4, 0⟩).2.2 =
        List.replicate (getA c2St3.meetingCallbacks "meeting_1" 0)
          (Event.notify "meeting_1" "meeting_started")) :=
  ⟨by decide, by decide, by decide,
    (C1_start_meeting_outcome c2St3 "meeting_1" (fun _ => true) ⟨4, 0⟩ c1Mtg
      (by decide) (by decide)).1 (by decide)⟩

/-- C2 counterexample: after scheduling three meetings, starting and
ending `meeting_1`, its record is still registered (contradicting the
removal the claim relies on), only two meetings are in
SCHEDULED/STARTING/ACTIVE with a ceiling of three, yet a further valid
schedule request with an available URL is rejected. -/
theorem C2_ceiling_counterexample :
    (end_meeting c2St4 "meeting_1" "manual" ⟨5, 0⟩ {}).2.1 = true ∧
    (lookupA c2St5.activeMeetings "meeting_1").isSome = true ∧
    validateMeetingConfig c2St5 cfgEx = true ∧
    (if (cfgEx.meetingUrl.getD "") = "" then "x" else cfgEx.meetingUrl.getD "") ≠ "" ∧
    (c2St5.activeMeetings.filter (fun pr => pr.2.state = MeetingState.scheduled ∨
       pr.2.state = MeetingState.starting ∨ pr.2.state = MeetingState.active)).length = 2 ∧
    c2St5.maxConcurrentMeetings = 3 ∧
    (schedule_meeting c2St5 cfgEx ⟨6, 0⟩ "x").2 = "" := by decide

/-- C2 amended: a valid configuration with an available URL is rejected
iff the total number of registered meeting records — regardless of
state — has reached the ceiling; `end_meeting` never removes the
record, so COMPLETED/FAILED meetings keep counting. -/
theorem C2_ceiling_amended (st : Orch) (cfg : MeetingConfig) (now : DTime) (purl : String)
    (meetingId reason : String) (enow : DTime) (post : PostResults) (m : Meeting)
    (hv : validateMeetingConfig st cfg = true)
    (hu : (if (cfg.meetingUrl.getD "") = "" then purl else cfg.meetingUrl.getD "") ≠ "")
    (hm : lookupA st.activeMeetings meetingId = some m) :
    ((schedule_meeting st cfg now purl).2 = "" ↔
      st.activeMeetings.length ≥ st.maxConcurrentMeetings) ∧
    (lookupA (end_meeting st meetingId reason enow post).1.activeMeetings meetingId).isSome = true := by
  constructor
  · simp only [schedule_meeting]
    rw [if_neg (not_not_intro hv)]
    by_cases hlen : st.activeMeetings.length ≥ st.maxConcurrentMeetings
    · rw [if_pos hlen]
      simp [hlen]
    · rw [if_neg hlen]
      rw [if_neg hu]
      simp [meetingIdOf_ne_empty, hlen]
  · simp only [end_meeting, hm]
    split
    · rw [hm]; rfl
    · rw [lookupA_insertA_self]; rfl

/-- C2 amended witness: over `c2St3` (three registered records, ceiling
three) a valid request is rejected, and ending `meeting_1` keeps its
record registered. -/
theorem C2_ceiling_amended_witness :
    validateMeetingConfig c2St3 cfgEx = true ∧
    ((if (cfgEx.meetingUrl.getD "") = "" then "p" else cfgEx.meetingUrl.getD "") ≠ "") ∧
    (lookupA c2St3.activeMeetings "meeting_1" = some c1Mtg) ∧
    (((schedule_meeting c2St3 cfgEx ⟨9, 0⟩ "p").2 = "" ↔
       c2St3.activeMeetings.length ≥ c2St3.maxConcurrentMeetings) ∧
     (lookupA (end_meeting c2St3 "meeting_1" "manual" ⟨9, 1⟩ {}).1.activeMeetings
       "meeting_1").isSome = true) :=
  ⟨by decide, by decide, by decide,
    C2_ceiling_amended c2St3 cfgEx ⟨9, 0⟩ "p" "meeting_1" "manual" ⟨9, 1⟩ {} c1Mtg
      (by decide) (by decide) (by decide)⟩

/-- C3: `end_meeting` on a missing meeting or one whose state is not
ACTIVE/STARTING returns failure with the whole orchestrator state
unchanged and no callback invoked; on an ACTIVE or STARTING meeting it
returns true, the record reaches COMPLETED with `end_time` and
`end_reason` set, and a second sequential call is rejected without any
further change. -/
theorem C3_end_meeting_idempotent_rejection (st : Orch) (meetingId reason : String)
    (now : DTime) (post : PostResults) (reason2 : String) (now2 : DTime) (post2 : PostResults) :
    (lookupA st.activeMeetings meetingId = none →
      end_meeting st meetingId reason now post = (st, false, [])) ∧
    (∀ meeting, lookupA st.activeMeetings meetingId = some meeting →
      meeting.state ≠ MeetingState.active → meeting.state ≠ MeetingState.starting →
      end_meeting st meetingId reason now post = (st, false, [])) ∧
    (∀ meeting, lookupA st.activeMeetings meetingId = some meeting →
      (meeting.state = MeetingState.active ∨ meeting.state = MeetingState.starting) →
      (end_meeting st meetingId reason now post).2.1 = true ∧
      (∃ m', lookupA (end_meeting st meetingId reason now post).1.activeMeetings meetingId =
          some m' ∧
        m'.state = MeetingState.completed ∧ m'.endTime = some now ∧
        m'.endReason = some reason) ∧
      end_meeting (end_meeting st meetingId reason now post).1 meetingId reason2 now2 post2 =
        ((end_meeting st meetingId reason now post).1, false, [])) := by
  refine ⟨?_, ?_, ?_⟩
  · intro h
    simp [end_meeting, h]
  · intro meeting hm hna hns
    simp only [end_meeting, hm]
    rw [if_pos ⟨hna, hns⟩]
  · intro meeting hm hor
    have hcond : ¬ (meeting.state ≠ MeetingState.active ∧
        meeting.state ≠ MeetingState.starting) := by
      rcases hor with h | h <;> simp [h]
    simp only [end_meeting, hm]
    rw [if_neg hcond]
    refine ⟨rfl, ⟨_, lookupA_insertA_self _ _ _, rfl, rfl, rfl⟩, ?_⟩
    simp only [end_meeting, lookupA_insertA_self]
    rw [if_pos ⟨by simp, by simp⟩]

/-- C3 witness: `meeting_1` in `c2St4` is ACTIVE; ending it yields
COMPLETED with the end metadata, and a second call is rejected without
mutation; while in `c2St5` it is COMPLETED, so ending it again is a
pure rejection. -/
theorem C3_end_meeting_idempotent_rejection_witness :
    (lookupA c2St4.activeMeetings "meeting_1" = some c3Mtg) ∧
    (c3Mtg.state = MeetingState.active ∨ c3Mtg.state = MeetingState.starting) ∧
    ((end_meeting c2St4 "meeting_1" "manual" ⟨5, 0⟩ {}).2.1 = true ∧
     (∃ m', lookupA (end_meeting c2St4 "meeting_1" "manual" ⟨5, 0⟩ {}).1.activeMeetings
         "meeting_1" = some m' ∧
       m'.state = MeetingState.completed ∧ m'.endTime = some (⟨5, 0⟩ : DTime) ∧
       m'.endReason = some "manual") ∧
     end_meeting (end_meeting c2St4 "meeting_1" "manual" ⟨5, 0⟩ {}).1 "meeting_1"
         "again" ⟨7, 0⟩ {} =
       ((end_meeting c2St4 "meeting_1" "manual" ⟨5, 0⟩ {}).1, false, [])) :=
  ⟨by decide, by decide,
    (C3_end_meeting_idempotent_rejection c2St4 "meeting_1" "manual" ⟨5, 0⟩ {}
      "again" ⟨7, 0⟩ {}).2.2 c3Mtg (by decide) (by decide)⟩

/-- C4 counterexample: two schedule calls in the same wall-clock second
(distinct microseconds) both succeed and return the same id
`meeting_100`; the second silently overwrites the first record (the
registry still holds one record, now titled `t2`). -/
theorem C4_meeting_id_counterexample :
    c4R1.2 = "meeting_100" ∧ c4R2.2 = "meeting_100" ∧
    c4R1.2 ≠ "" ∧ c4R2.2 ≠ "" ∧ c4R1.2 = c4R2.2 ∧
    ((⟨100, 0⟩ : DTime) ≠ (⟨100, 5⟩ : DTime)) ∧
    c4R2.1.activeMeetings.length = 1 ∧
    (lookupA c4R2.1.activeMeetings "meeting_100").map Meeting.title = some "t2" := by decide

/-- C4 amended: ids returned by successful `schedule_meeting` calls are
distinct only when the call times differ at second resolution; calls in
the same second yield the identical id (so the later record replaces
the earlier one under that key). -/
theorem C4_meeting_id_amended (stA stB : Orch) (cfgA cfgB : MeetingConfig)
    (nA nB : DTime) (uA uB : String)
    (hA : (schedule_meeting stA cfgA nA uA).2 ≠ "")
    (hB : (schedule_meeting stB cfgB nB uB).2 ≠ "")
    (hsec : nA.sec ≠ nB.sec) :
    (schedule_meeting stA cfgA nA uA).2 ≠ (schedule_meeting stB cfgB nB uB).2 ∧
    (∀ n1 n2 : DTime, n1.sec = n2.sec → meetingIdOf n1 = meetingIdOf n2) := by
  constructor
  · rw [schedule_success_id _ _ _ _ hA, schedule_success_id _ _ _ _ hB]
    intro h
    exact hsec (meetingIdOf_inj _ _ h)
  · intro n1 n2 h
    simp [meetingIdOf, h]

/-- C4 amended witness: schedule calls at seconds 1 and 2 succeed and
return distinct ids. -/
theorem C4_meeting_id_amended_witness :
    (schedule_meeting orchEx cfgEx ⟨1, 0⟩ "x").2 ≠ "" ∧
    (schedule_meeting orchEx cfgEx ⟨2, 0⟩ "x").2 ≠ "" ∧
    (1 : Nat) ≠ 2 ∧
    (schedule_meeting orchEx cfgEx ⟨1, 0⟩ "x").2 ≠ (schedule_meeting orchEx cfgEx ⟨2, 0⟩ "x").2 :=
  ⟨by decide, by decide, by decide,
    (C4_meeting_id_amended orchEx orchEx cfgEx cfgEx ⟨1, 0⟩ ⟨2, 0⟩ "x" "x"
      (by decide) (by decide) (by decide)).1⟩

/-- C5: the per-meeting transcription callback always appends exactly
the delivered event to the transcript of a registered meeting, and
agent-response evaluation runs iff the event type is `final`; a
`partial` event never triggers any agent. -/
theorem C5_transcription_final_only (st : Orch) (meetingId : String) (res : TransResult)
    (meeting : Meeting) (hm : lookupA st.activeMeetings meetingId = some meeting) :
    (lookupA (transcriptionCallback st meetingId res).1.activeMeetings meetingId =
       some { meeting with transcript := meeting.transcript ++ [entryOfResult res] }) ∧
    ((transcriptionCallback st meetingId res).2.isSome = true ↔ res.ty = "final") ∧
    (res.ty = "partial" → (transcriptionCallback st meetingId res).2 = none) := by
  simp only [transcriptionCallback, hm]
  by_cases hf : res.ty = "final"
  · rw [if_pos hf]
    refine ⟨lookupA_insertA_self _ _ _, by simp [hf], ?_⟩
    intro hp
    rw [hp] at hf
    exact absurd hf (by decide)
  · rw [if_neg hf]
    exact ⟨lookupA_insertA_self _ _ _, by simp [hf], fun _ => rfl⟩

/-- C5 witness: a `partial` event on the active `meeting_1` of `c2St4`
is appended to the transcript but triggers no evaluation. -/
theorem C5_transcription_final_only_witness :
    (lookupA c2St4.activeMeetings "meeting_1" = some c3Mtg) ∧
    ((lookupA (transcriptionCallback c2St4 "meeting_1"
        { timestamp := 10, speaker := "Someone", text := "any status?", confidence := 1,
          ty := "partial", provider := none }).1.activeMeetings "meeting_1" =
      some { c3Mtg with transcript := c3Mtg.transcript ++ [entryOfResult
        { timestamp := 10, speaker := "Someone", text := "any status?", confidence := 1,
          ty := "partial", provider := none }] }) ∧
     ((transcriptionCallback c2St4 "meeting_1"
        { timestamp := 10, speaker := "Someone", text := "any status?", confidence := 1,
          ty := "partial", provider := none }).2.isSome = true ↔
       ("partial" : String) = "final") ∧
     (("partial" : String) = "partial" →
       (transcriptionCallback c2St4 "meeting_1"
        { timestamp := 10, speaker := "Someone", text := "any status?", confidence := 1,
          ty := "partial", provider := none }).2 = none)) :=
  ⟨by decide,
    C5_transcription_final_only c2St4 "meeting_1"
      { timestamp := 10, speaker := "Someone", text := "any status?", confidence := 1,
        ty := "partial", provider := none } c3Mtg (by decide)⟩

/-- C6: under the natural-flow strategy, once the turn count of a
speaker belonging to a conversation with at least one other participant
reaches `max_consecutive_turns` with this `add_message` call, the
speaking queue ends with a participant other than the speaker (and in
particular is non-empty); concretely, for three participants with the
default threshold 3, after alice sends three marker-free messages in a
row the queue head is bob, not alice. -/
theorem C6_natural_flow_starvation (st : ConvState) (cur content : String)
    (mt : MessageType) (now : Nat)
    (hstrat : st.strategy = TurnTakingStrategy.natural_flow)
    (hmem : cur ∈ st.participants)
    (hother : ∃ p, p ∈ st.participants ∧ p ≠ cur)
    (hreach : getA st.turnCounts cur 0 + 1 ≥ st.maxConsecutiveTurns) :
    (∃ x, (add_message st cur content mt now).speakingQueue.getLast? = some x ∧
       x ≠ cur ∧ x ∈ st.participants ∧
       (add_message st cur content mt now).speakingQueue ≠ []) ∧
    (c6St2.turnCounts = [("alice", 2), ("bob", 0), ("carol", 0)] ∧
     (add_message c6St2 "alice" "hello there" MessageType.general 3).speakingQueue.head? =
       some "bob" ∧
     ("bob" : String) ≠ "alice" ∧
     (add_message c6St2 "alice" "hello there" MessageType.general 3).speakingQueue ≠ []) := by
  constructor
  · have hc : st.participants.contains cur = true := by simpa using hmem
    simp only [add_message, hc, if_true]
    rw [processTurnTaking_natural (addMessageRaw st cur content mt now) cur now hstrat]
    have hlast : (addMessageRaw st cur content mt now).conversationHistory.getLast? =
        some ⟨cur, content, mt, now, 1⟩ := List.getLast?_concat _
    simp only [handleNaturalFlow, hlast]
    obtain ⟨q2, hq2⟩ := naturalFlowRespond_fields (addMessageRaw st cur content mt now)
      ⟨cur, content, mt, now, 1⟩ cur now
    rw [hq2]
    have hcount : getA ({ addMessageRaw st cur content mt now with
        speakingQueue := q2 } : ConvState).turnCounts cur 0 ≥
        ({ addMessageRaw st cur content mt now with
        speakingQueue := q2 } : ConvState).maxConsecutiveTurns := by
      show getA (insertA st.turnCounts cur (getA st.turnCounts cur 0 + 1)) cur 0 ≥
        st.maxConsecutiveTurns
      simp only [getA, lookupA_insertA_self, Option.getD_some]
      exact hreach
    obtain ⟨x, hx, hxne, hxmem⟩ := naturalFlowStarvation_starves _ cur hcount hother
    refine ⟨x, ?_, hxne, hxmem, ?_⟩
    · rw [hx]
      exact List.getLast?_concat _
    · rw [hx]
      simp
  · exact ⟨by decide, by decide, by decide, by decide⟩

/-- C6 witness: after two alice messages in `c6St2`, the third
marker-free alice message forcibly queues a different participant. -/
theorem C6_natural_flow_starvation_witness :
    c6St2.strategy = TurnTakingStrategy.natural_flow ∧
    "alice" ∈ c6St2.participants ∧
    (∃ p, p ∈ c6St2.participants ∧ p ≠ "alice") ∧
    getA c6St2.turnCounts "alice" 0 + 1 ≥ c6St2.maxConsecutiveTurns ∧
    (∃ x, (add_message c6St2 "alice" "hello there" MessageType.general 3).speakingQueue.getLast? =
        some x ∧ x ≠ "alice" ∧ x ∈ c6St2.participants ∧
      (add_message c6St2 "alice" "hello there" MessageType.general 3).speakingQueue ≠ []) :=
  ⟨by decide, by decide, ⟨"bob", by decide, by decide⟩, by decide,
    (C6_natural_flow_starvation c6St2 "alice" "hello there" MessageType.general 3
      (by decide) (by decide) ⟨"bob", by decide, by decide⟩ (by decide)).1⟩

/-- C7: the response-eligibility check returns true iff the lowercased
agent name is a substring of the lowercased message, or one of the
fixed trigger words occurs in it, or the stripped message ends in `?`;
in particular every agent is eligible for
`What\x27s your status, Sarah?`, and no agent whose name does not occur
in `Looks good.` is eligible for it. -/
theorem C7_should_agent_respond (agentName messageContent : String) :
    (shouldAgentRespond agentName messageContent = true ↔
      (containsSub (lowerStr agentName) (lowerStr messageContent) = true ∨
       responseTriggers.any (fun t => containsSub t (lowerStr messageContent)) = true ∨
       endsWithQm (stripL messageContent.data) = true)) ∧
    shouldAgentRespond agentName "What\x27s your status, Sarah?" = true ∧
    (containsSub (lowerStr agentName) (lowerStr "Looks good.") = false →
      shouldAgentRespond agentName "Looks good." = false) := by
  refine ⟨shouldAgentRespond_iff agentName messageContent, ?_, ?_⟩
  · exact (shouldAgentRespond_iff agentName _).mpr (Or.inr (Or.inl (by decide)))
  · intro h
    cases hb : shouldAgentRespond agentName "Looks good."
    · rfl
    · exfalso
      rcases (shouldAgentRespond_iff agentName "Looks good.").mp hb with h1 | h2 | h3
      · rw [h] at h1
        cases h1
      · revert h2
        decide
      · revert h3
        decide

/-- C7 witness: agent `Bob` is not eligible for `Looks good.` and is
eligible for the status question. -/
theorem C7_should_agent_respond_witness :
    containsSub (lowerStr "Bob") (lowerStr "Looks good.") = false ∧
    shouldAgentRespond "Bob" "Looks good." = false ∧
    shouldAgentRespond "Bob" "What\x27s your status, Sarah?" = true :=
  ⟨by decide, (C7_should_agent_respond "Bob" "m").2.2 (by decide),
    (C7_should_agent_respond "Bob" "m").2.1⟩

/-- C8 counterexample: with priority-based turn-taking and facilitator
`frank` supplied at initialization without being a participant, the
sequence `c8Ops` leaves `frank` in the speaking queue even though he is
not in the participants list, refuting the claimed invariant that every
queued id is a participant. -/
theorem C8_invariant_counterexample :
    "frank" ∈ c8St.speakingQueue ∧ "frank" ∉ c8St.participants := by decide

/-- C8 amended: after `initialize_conversation` and any sequence of
ConversationManager operations, the `turnCounts` key set still contains
every participant, and every queued id is a participant or the
facilitator (the original claim, queue ⊆ participants, fails only for
a spoken facilitator outside the participants list). -/
theorem C8_invariant_amended (st st0 : ConvState) (ps : List String) (fac : Option String)
    (ops : List ConvOp)
    (hinit : initialize_conversation st ps fac = Except.ok st0) :
    (∀ p ∈ (runConvOps st0 ops).participants,
      (lookupA (runConvOps st0 ops).turnCounts p).isSome) ∧
    (∀ q ∈ (runConvOps st0 ops).speakingQueue,
      q ∈ (runConvOps st0 ops).participants ∨ (runConvOps st0 ops).facilitator = some q) :=
  have hinv := convInv_runConvOps ops st0 (convInv_afterInit st st0 ps fac hinit)
  ⟨hinv.1, hinv.2.2⟩

/-- C8 amended witness: the counterexample run itself satisfies the
amended invariant (frank is the facilitator). -/
theorem C8_invariant_amended_witness :
    (initialize_conversation (initConvManager .priority_based) ["alice", "bob"]
      (some "frank") = Except.ok c8Init) ∧
    (∀ p ∈ c8St.participants, (lookupA c8St.turnCounts p).isSome) ∧
    (∀ q ∈ c8St.speakingQueue, q ∈ c8St.participants ∨ c8St.facilitator = some q) :=
  ⟨rfl,
    (C8_invariant_amended (initConvManager .priority_based) c8Init ["alice", "bob"]
      (some "frank") c8Ops rfl).1,
    (C8_invariant_amended (initConvManager .priority_based) c8Init ["alice", "bob"]
      (some "frank") c8Ops rfl).2⟩

/-- C9: with an empty conversation history the engagement classifier
returns `no_activity` — a value outside high/medium/low — and it is
surfaced unchanged by `get_conversation_summary` and
`end_conversation`. -/
theorem C9_no_activity (st : ConvState) (h : st.conversationHistory = []) :
    calculateEngagementLevel st = some "no_activity" ∧
    (get_conversation_summary st).map ConvSummary.engagementLevel = some "no_activity" ∧
    ((end_conversation st).2).map ConvSummary.engagementLevel = some "no_activity" ∧
    ("no_activity" : String) ≠ "high" ∧ ("no_activity" : String) ≠ "medium" ∧
    ("no_activity" : String) ≠ "low" := by
  have hcalc : calculateEngagementLevel st = some "no_activity" := by
    simp [calculateEngagementLevel, h]
  have hcalc2 : calculateEngagementLevel { st with state := ConversationState.idle } =
      some "no_activity" := by
    simp [calculateEngagementLevel, h]
  refine ⟨hcalc, ?_, ?_, by decide, by decide, by decide⟩
  · simp [get_conversation_summary, hcalc]
  · simp [end_conversation, get_conversation_summary, hcalc2]

/-- C9 witness: the freshly constructed manager has an empty history
and its summary reports `no_activity`. -/
theorem C9_no_activity_witness :
    (initConvManager TurnTakingStrategy.natural_flow).conversationHistory = [] ∧
    (calculateEngagementLevel (initConvManager TurnTakingStrategy.natural_flow) =
      some "no_activity" ∧
     (get_conversation_summary (initConvManager TurnTakingStrategy.natural_flow)).map
       ConvSummary.engagementLevel = some "no_activity" ∧
     ((end_conversation (initConvManager TurnTakingStrategy.natural_flow)).2).map
       ConvSummary.engagementLevel = some "no_activity" ∧
     ("no_activity" : String) ≠ "high" ∧ ("no_activity" : String) ≠ "medium" ∧
     ("no_activity" : String) ≠ "low") :=
  ⟨rfl, C9_no_activity (initConvManager TurnTakingStrategy.natural_flow) rfl⟩

/-- C10: `initialize_conversation` with an empty participants list and
no facilitator raises (modelled as the `.error` outcome) after having
already assigned `participants`, leaving the rest of the manager
untouched; any non-empty participants list completes normally, so
non-emptiness is the unstated precondition. -/
theorem C10_empty_participants (st : ConvState) :
    initialize_conversation st [] none =
      Except.error { st with participants := ([] : List String) } ∧
    (∀ ps : List String, ps ≠ [] →
      ∃ st', initialize_conversation st ps none = Except.ok st') := by
  constructor
  · rfl
  · intro ps hps
    cases ps with
    | nil => exact absurd rfl hps
    | cons p t => exact ⟨_, rfl⟩

/-- C10 witness: instantiation at the freshly constructed manager,
with the singleton list as the non-empty case. -/
theorem C10_empty_participants_witness :
    initialize_conversation (initConvManager TurnTakingStrategy.natural_flow) [] none =
      Except.error { initConvManager TurnTakingStrategy.natural_flow with
        participants := ([] : List String) } ∧
    (["a"] : List String) ≠ [] ∧
    (∃ st', initialize_conversation (initConvManager TurnTakingStrategy.natural_flow)
      ["a"] none = Except.ok st') :=
  ⟨(C10_empty_participants (initConvManager TurnTakingStrategy.natural_flow)).1,
    by decide,
    (C10_empty_participants (initConvManager TurnTakingStrategy.natural_flow)).2 ["a"]
      (by decide)⟩

end AMA
